import Mathlib

/-!
Shallow embedding of the valex validation library (Go) and proofs about the
claims of its specification.

Conventions of the embedding:
  * Go errors are modelled as `Option String` (the message) for components
    whose claims are about message text, and as small inductive error types
    for components whose claims are about which error site fired (IP range,
    UUID).  `none` is the Go `nil` error.
  * `fmt.Errorf(format, args...)` is modelled by a formatting function passed
    to the helper, applied at the same call site as in the source.
  * Go `int` is modelled as `Int`: the validators below only compare values,
    they never perform arithmetic, so the embedding is exact on the whole
    `int` range.  Float payloads are covered by the generic statements over a
    linear-ordered ring, which is the order structure `cmp.Less` induces on
    the (finite, non-NaN) values the spec sweeps.
-/

namespace Valex

/-- Go: the `Validator[T]` interface, i.e. one `Validate` function returning
`(ok bool, err error)`. -/
def GoValidator (α : Type) : Type := α → Bool × Option String

/-- Go: `ValidatedValue[T]` (src/validator.go) — a stored value plus an
optional bound validator (`nil` validator is `none`). -/
structure ValidatedValue (α : Type) where
  value : α
  Validator : Option (GoValidator α)

/-- Go: `ValidatedValue.Set` (src/validator.go lines 29-39).  Returns the new
state together with the returned error.  With a `nil` validator it returns the
error "no validator set" and leaves the state unchanged; on a failing
validator it returns the error of the validator verbatim and leaves the state
unchanged; otherwise it stores the value and returns `nil`. -/
def ValidatedValue.Set {α : Type} (v : ValidatedValue α) (val : α) :
    ValidatedValue α × Option String :=
  match v.Validator with
  | none => (v, some "no validator set")
  | some f =>
    match f val with
    | (false, err) => (v, err)
    | (true, _) => ({ v with value := val }, none)

/-- Go: `ValidatedValue.Get` (src/validator.go lines 42-44). -/
def ValidatedValue.Get {α : Type} (v : ValidatedValue α) : α := v.value

/-- Go: a freshly constructed `ValidatedValue[T]{Validator: v?}`; `zero` is
the zero value of `T` that the Go struct initialization puts in the unexported
`value` field. -/
def ValidatedValue.fresh {α : Type} (zero : α) (v? : Option (GoValidator α)) :
    ValidatedValue α :=
  { value := zero, Validator := v? }

/-- A sequence of `Set` calls, keeping only the final state. -/
def ValidatedValue.setAll {α : Type} (s : ValidatedValue α) (vals : List α) :
    ValidatedValue α :=
  vals.foldl (fun st v => (st.Set v).1) s

/-- Go: `CompositeValidator.Validate` (src/validators.go): run the validators
in list order, return the first failure verbatim, `(true, nil)` when all
accept. -/
def CompositeValidator.Validate {α : Type} (validators : List (GoValidator α))
    (val : α) : Bool × Option String :=
  match validators with
  | [] => (true, none)
  | f :: rest =>
    match f val with
    | (true, _) => CompositeValidator.Validate rest val
    | (false, err) => (false, err)

/- ## Predicate primitives (src/validators.go) -/

/-- Go: `validateRange` (src/validators.go lines 53-58): fails iff
`cmp.Less(val, min) || cmp.Less(max, val)`, with the failure message built by
`fmt.Errorf(format, val, min, max)` (the format application is the `format`
function here). -/
def validateRange {α : Type} [LinearOrder α] (val mi ma : α)
    (format : α → α → α → String) : Bool × Option String :=
  if val < mi ∨ ma < val then (false, some (format val mi ma)) else (true, none)

/-- Go: `validateOneOf` (src/validators.go lines 90-98): empty configured list
is the configuration error `emptyErr`; otherwise membership via
`slices.Contains`; the failure message is `fmt.Errorf(format, val)`. -/
def validateOneOf {α : Type} [DecidableEq α] (val : α) (values : List α)
    (emptyErr : String) (format : α → String) : Bool × Option String :=
  if values = [] then (false, some emptyErr)
  else if val ∈ values then (true, none)
  else (false, some (format val))

/-- The format string `"value %d is out of range [%d, %d]"` of
`IntRangeValidator.Validate`, applied to its arguments. -/
def intRangeFormat (val mi ma : Int) : String :=
  "value " ++ toString val ++ " is out of range [" ++ toString mi ++ ", " ++
    toString ma ++ "]"

/-- Go: `IntRangeValidator` (src/validators.go lines 100-104). -/
structure IntRangeValidator where
  Min : Int
  Max : Int

/-- Go: `IntRangeValidator.Validate` (src/validators.go lines 107-109). -/
def IntRangeValidator.Validate (v : IntRangeValidator) (val : Int) :
    Bool × Option String :=
  validateRange val v.Min v.Max intRangeFormat

/-- Go `%q` formatting on the strings appearing in this development (no characters
needing escapes): wrap in double quotes. -/
def goQuote (s : String) : String := "\"" ++ s ++ "\""

/-- Go: `OneOfStringValidator` (src/validators.go lines 1312-1315). -/
structure OneOfStringValidator where
  Values : List String

/-- Go: `OneOfStringValidator.Validate` (src/validators.go lines 1318-1320). -/
def OneOfStringValidator.Validate (v : OneOfStringValidator) (val : String) :
    Bool × Option String :=
  validateOneOf val v.Values "value of parameter \"values\" cannot be empty"
    (fun x => "value " ++ goQuote x ++ " is not in allowed set")

/-- Go: `OneOfIntValidator` (src/validators.go lines 1348-1351). -/
structure OneOfIntValidator where
  Values : List Int

/-- Go: `OneOfIntValidator.Validate` (src/validators.go lines 1354-1356). -/
def OneOfIntValidator.Validate (v : OneOfIntValidator) (val : Int) :
    Bool × Option String :=
  validateOneOf val v.Values "value of parameter \"values\" cannot be empty"
    (fun x => "value " ++ toString x ++ " is not in allowed set")

/- ## UUID validator (src/validators.go lines 1488-1521) -/

/-- Matches `[0-9a-fA-F]` of the UUID regular expression. -/
def isHexChar (c : Char) : Bool :=
  c.isDigit || ('a' ≤ c && c ≤ 'f') || ('A' ≤ c && c ≤ 'F')

/-- The dash positions of the canonical 8-4-4-4-12 grouping. -/
def uuidDashPos (i : Nat) : Bool := i == 8 || i == 13 || i == 18 || i == 23

/-- Whether a character list matches the anchored UUID regular expression
`^[hex]\x7b8\x7d-[hex]\x7b4\x7d-[hex]\x7b4\x7d-[hex]\x7b4\x7d-[hex]\x7b12\x7d$`:
exactly 36 characters, dashes at positions 8, 13, 18 and 23, hex digits
everywhere else. -/
def uuidFormatOk (cs : List Char) : Bool :=
  cs.length == 36 &&
    (List.range 36).all (fun i =>
      if uuidDashPos i then cs.getD i ' ' == '-' else isHexChar (cs.getD i ' '))

/-- Go `strconv.ParseInt(c, 16, 0)` for a single hex-digit character (the only
use in `UUIDValidator.Validate`; on a regex-matched character it never
fails). -/
def hexVal (c : Char) : Int :=
  if c.isDigit then (c.toNat : Int) - 48
  else if 'a' ≤ c && c ≤ 'f' then (c.toNat : Int) - 87
  else if 'A' ≤ c && c ≤ 'F' then (c.toNat : Int) - 55
  else 0

/-- The error sites of `UUIDValidator.Validate`, one constructor per
`fmt.Errorf` call (the `ParseInt` error branch is unreachable on a
regex-matched character and has no constructor). -/
inductive UUIDErr where
  | notUUID (val : String)
  | notVariant (val : String)
  | invalidVersion (version : Int)
  | wrongVersion (val : String) (expected : Int)
  deriving DecidableEq

/-- Go: `UUIDValidator` — `Version` 0 means unspecified (defaults to 4). -/
structure UUIDValidator where
  Version : Int := 0

/-- Go: `UUIDValidator.Validate` (src/validators.go lines 1495-1521).  The
version nibble is character 14 (first hex digit of group 3), the variant
nibble character 19 (first hex digit of group 4); both are lowercased before
use, exactly as in the source. -/
def UUIDValidator.Validate (v : UUIDValidator) (val : String) :
    Bool × Option UUIDErr :=
  let cs := val.data
  if !uuidFormatOk cs then (false, some (.notUUID val))
  else
    let versionChar := (cs.getD 14 ' ').toLower
    let variantChar := (cs.getD 19 ' ').toLower
    let version := hexVal versionChar
    if !(variantChar == '8' || variantChar == '9' || variantChar == 'a' ||
        variantChar == 'b') then
      (false, some (.notVariant val))
    else
      let expected := if v.Version = 0 then 4 else v.Version
      if expected < 1 ∨ expected > 8 then (false, some (.invalidVersion expected))
      else if version ≠ expected then (false, some (.wrongVersion val expected))
      else (true, none)

/- ## IP range validator (src/validators.go lines 1168-1198, 1799-1807) -/

/-- The 12-byte head `0,...,0,0xff,0xff` that marks an IPv4-mapped IPv6
address (`net.IP.To4` recognizes exactly this shape on 16-byte addresses). -/
def v4MappedHead : List Nat :=
  [0, 0, 0, 0, 0, 0, 0, 0, 0, 0, 255, 255]

/-- Go: `normalizeIP` (src/validators.go lines 1799-1807).  A `net.IP` is its
byte slice; `[]` is the Go `nil` (and any length other than 4 or 16 normalizes
to `nil`, since both `To4` and `To16` return `nil` on it).  A 16-byte
IPv4-mapped address collapses to its 4-byte form via `To4`; other 16-byte
addresses stay 16 bytes via `To16`. -/
def normalizeIP (ip : List Nat) : Option (List Nat) :=
  if ip.length = 4 then some ip
  else if ip.length = 16 then
    if ip.take 12 = v4MappedHead then some (ip.drop 12) else some ip
  else none

/-- Go: `bytes.Compare` — unsigned byte-wise lexicographic order, a proper
prefix being smaller. -/
def bytesCompare : List Nat → List Nat → Ordering
  | [], [] => .eq
  | [], _ :: _ => .lt
  | _ :: _, [] => .gt
  | a :: as, b :: bs =>
    if a < b then .lt else if b < a then .gt else bytesCompare as bs

/-- The error sites of `IPRangeValidator.Validate`, one constructor per error
return, in source order; `outOfRange` carries the three original (raw,
un-normalized) addresses that the source formats into its message. -/
inductive IPErr where
  | invalidBounds
  | invalidIP
  | familyBounds
  | familyMismatch
  | invertedBounds
  | outOfRange (val start stop : List Nat)
  deriving DecidableEq

/-- Go: `IPRangeValidator` (src/validators.go lines 1169-1172). -/
structure IPRangeValidator where
  Start : List Nat
  End : List Nat

/-- Go: `IPRangeValidator.Validate` (src/validators.go lines 1175-1198): the
checks run in source order — invalid bounds, invalid candidate, bound-family
mismatch, candidate-family mismatch, inverted bounds, then the byte-wise
range comparison on the normalized forms. -/
def IPRangeValidator.Validate (v : IPRangeValidator) (val : List Nat) :
    Bool × Option IPErr :=
  match normalizeIP v.Start with
  | none => (false, some .invalidBounds)
  | some s =>
    match normalizeIP v.End with
    | none => (false, some .invalidBounds)
    | some e =>
      match normalizeIP val with
      | none => (false, some .invalidIP)
      | some w =>
        if s.length ≠ e.length then (false, some .familyBounds)
        else if w.length ≠ s.length then (false, some .familyMismatch)
        else if bytesCompare s e = .gt then (false, some .invertedBounds)
        else if bytesCompare w s = .lt ∨ bytesCompare w e = .gt then
          (false, some (.outOfRange val v.Start v.End))
        else (true, none)

/- ## Form tag parsing (src/form.go lines 187-213) -/

/-- Go `strings.Split` with a single-character separator, on character
lists: split at every occurrence of `sep`, keeping empty pieces; the result
always has one more piece than there are separators (in particular it is
never empty). -/
def splitChar (sep : Char) : List Char → List (List Char)
  | [] => [[]]
  | c :: rest =>
    if c = sep then [] :: splitChar sep rest
    else
      match splitChar sep rest with
      | [] => [[c]]
      | g :: gs => (c :: g) :: gs

/-- Go `strings.Split` with a single-character separator, on strings. -/
def goSplit (s : String) (sep : Char) : List String :=
  (splitChar sep s.data).map String.mk

/-- Go `strings.TrimSpace`, restricted to the ASCII whitespace characters
(space, tab, carriage return, newline) — the only whitespace forms relevant
to the tag grammar. -/
def goTrim (s : String) : String :=
  ⟨((s.data.dropWhile Char.isWhitespace).reverse.dropWhile
      Char.isWhitespace).reverse⟩

/-- Decidable equality for `Except` results, for evaluating the parser on
concrete inputs. -/
instance {ε α : Type} [DecidableEq ε] [DecidableEq α] : DecidableEq (Except ε α) := fun a b =>
  match a, b with
  | .error e, .error f => by
      cases h : decide (e = f) <;>
        [exact .isFalse (by simp_all); exact .isTrue (by simp_all)]
  | .error _, .ok _ => .isFalse (by simp)
  | .ok _, .error _ => .isFalse (by simp)
  | .ok x, .ok y => by
      cases h : decide (x = y) <;>
        [exact .isFalse (by simp_all); exact .isTrue (by simp_all)]

/-- The message `"malformed key value pair %q, expected format is \"key=value\""`
of `splitFormTag`, applied to the offending pair. -/
def malformedMsg (pair : String) : String :=
  "malformed key value pair " ++ goQuote pair ++
    ", expected format is \"key=value\""

/-- Go map assignment `args[key] = val` on the association-list model of
`map[string]string`: overwrite an existing binding, else append. -/
def mapInsert (m : List (String × String)) (k v : String) :
    List (String × String) :=
  if m.any (fun p => p.1 == k) then
    m.map (fun p => if p.1 == k then (k, v) else p)
  else m ++ [(k, v)]

/-- The `for _, pair := range parts[1:]` loop of `splitFormTag`: trim each
comma-separated piece, silently skip a piece that trims to the empty string,
split the rest on `=` and demand exactly two pieces (the two-element match
is the len(kv) != 2 test plus the kv[0], kv[1] accesses of the source) with
non-empty trimmed key and value, else fail with the malformed-pair error. -/
def formPairsLoop (pairs : List String) (args : List (String × String)) :
    Except String (List (String × String)) :=
  match pairs with
  | [] => .ok args
  | pair :: rest =>
    let p := goTrim pair
    if p = "" then formPairsLoop rest args
    else
      match goSplit p '=' with
      | [k0, v0] =>
        let key := goTrim k0
        let v := goTrim v0
        if key = "" ∨ v = "" then .error (malformedMsg p)
        else formPairsLoop rest (mapInsert args key v)
      | _ => .error (malformedMsg p)

/-- Go: `splitFormTag` (src/form.go lines 187-213).  On success the source
returns `("field", args, nil)`; an error return discards the map, modelled by
`Except`.  `strings.Split(s, ",")` is `goSplit`, which like the Go function never
yields an empty part list and keeps empty pieces. -/
def splitFormTag (tagVal : String) : Except String (String × List (String × String)) :=
  let parts := goSplit tagVal ','
  if parts.length = 0 ∨ goTrim (parts.headD "") = "" then
    .error "field tag value is required"
  else
    match formPairsLoop parts.tail [("key", goTrim (parts.headD ""))] with
    | .error e => .error e
    | .ok args => .ok ("field", args)

/-- A comma-separated piece (already trimmed, non-empty) that `splitFormTag`
rejects: not exactly one `=`, or empty trimmed key or value. -/
def malformedPair (p : String) : Bool :=
  match goSplit p '=' with
  | [k0, v0] => goTrim k0 == "" || goTrim v0 == ""
  | _ => true

/- ## Concrete validators used to instantiate the theorems -/

/-- Accepts exactly the integers below 5; rejects the rest with an error. -/
def ltFive : GoValidator Int :=
  fun x => if x < 5 then (true, none) else (false, some "must be below 5")

/-- Rejects every value with the same error. -/
def rejectAll : GoValidator Int := fun _ => (false, some "rejected")

/-- A sentinel validator standing for the panicking second validator of the
spec scenario; the composite theorem shows the result never depends on it. -/
def sentinel : GoValidator Int := fun _ => (true, some "sentinel invoked")

/- ## Helper lemmas -/

/-- A run of `Set` calls each of which is rejected by the bound validator (or
made with no validator bound) leaves the whole state unchanged. -/
theorem setAll_of_rejected {α : Type} :
    ∀ (vals : List α) (s : ValidatedValue α),
      (∀ x ∈ vals, ∀ f, s.Validator = some f → (f x).1 = false) →
      ValidatedValue.setAll s vals = s := by
  intro vals
  induction vals with
  | nil => intro s _; rfl
  | cons x xs ih =>
    intro s h
    have hset : (s.Set x).1 = s := by
      cases hv : s.Validator with
      | none => simp [ValidatedValue.Set, hv]
      | some f =>
        have hfx : (f x).1 = false := h x (by simp) f hv
        rcases hfx' : f x with ⟨ok, e⟩
        rw [hfx'] at hfx
        simp only at hfx
        subst hfx
        simp [ValidatedValue.Set, hv, hfx']
    show ValidatedValue.setAll (s.Set x).1 xs = s
    rw [hset]
    exact ih s (fun y hy => h y (List.mem_cons_of_mem x hy))

/- ## Claims -/

/-- C1: with a bound validator, a `Set` whose candidate the validator rejects
returns the error of the validator verbatim and leaves `Get` (indeed the
whole state) unchanged; a `Set` whose candidate the validator accepts returns
`nil` and makes `Get` return the new value. -/
theorem C1_set_atomicity {α : Type} (s : ValidatedValue α)
    (f : GoValidator α) (v : α) (hf : s.Validator = some f) :
    ((f v).1 = false →
      (s.Set v).2 = (f v).2 ∧ (s.Set v).1.Get = s.Get ∧ (s.Set v).1 = s) ∧
    ((f v).1 = true → (s.Set v).2 = none ∧ (s.Set v).1.Get = v) := by
  rcases hv : f v with ⟨ok, err⟩
  constructor
  · intro hrej
    simp only at hrej
    subst hrej
    simp [ValidatedValue.Set, ValidatedValue.Get, hf, hv]
  · intro hacc
    simp only at hacc
    subst hacc
    simp [ValidatedValue.Set, ValidatedValue.Get, hf, hv]

/-- Witness for C1 at a concrete state and candidates: `ltFive` rejects 7 (the
state `⟨10, ltFive⟩` survives untouched with the error returned verbatim) and
accepts 3. -/
theorem C1_set_atomicity_witness :
    (((ltFive 7).1 = false →
        ((⟨10, some ltFive⟩ : ValidatedValue Int).Set 7).2 = (ltFive 7).2 ∧
        ((⟨10, some ltFive⟩ : ValidatedValue Int).Set 7).1.Get =
          (⟨10, some ltFive⟩ : ValidatedValue Int).Get ∧
        ((⟨10, some ltFive⟩ : ValidatedValue Int).Set 7).1 = ⟨10, some ltFive⟩) ∧
      ((ltFive 7).1 = true →
        ((⟨10, some ltFive⟩ : ValidatedValue Int).Set 7).2 = none ∧
        ((⟨10, some ltFive⟩ : ValidatedValue Int).Set 7).1.Get = 7)) ∧
    (((ltFive 3).1 = false →
        ((⟨10, some ltFive⟩ : ValidatedValue Int).Set 3).2 = (ltFive 3).2 ∧
        ((⟨10, some ltFive⟩ : ValidatedValue Int).Set 3).1.Get =
          (⟨10, some ltFive⟩ : ValidatedValue Int).Get ∧
        ((⟨10, some ltFive⟩ : ValidatedValue Int).Set 3).1 = ⟨10, some ltFive⟩) ∧
      ((ltFive 3).1 = true →
        ((⟨10, some ltFive⟩ : ValidatedValue Int).Set 3).2 = none ∧
        ((⟨10, some ltFive⟩ : ValidatedValue Int).Set 3).1.Get = 3)) :=
  ⟨C1_set_atomicity ⟨10, some ltFive⟩ ltFive 7 rfl,
   C1_set_atomicity ⟨10, some ltFive⟩ ltFive 3 rfl⟩

/-- C2: `CompositeValidator.Validate` runs the validators in list order and
returns the verdict and error of the first failing validator verbatim; the
result does not depend on the validators after the first failing one (they
are never invoked — the suffix `l2` is universally quantified and absent from
the result); when every validator accepts, the result is `(true, nil)`. -/
theorem C2_composite_short_circuit {α : Type} (val : α) :
    (∀ (l1 : List (GoValidator α)) (f : GoValidator α)
        (l2 : List (GoValidator α)),
      (∀ g ∈ l1, (g val).1 = true) → (f val).1 = false →
      CompositeValidator.Validate (l1 ++ f :: l2) val = (false, (f val).2)) ∧
    (∀ l : List (GoValidator α),
      (∀ g ∈ l, (g val).1 = true) →
      CompositeValidator.Validate l val = (true, none)) := by
  constructor
  · intro l1
    induction l1 with
    | nil =>
      intro f l2 _ hrej
      rcases hv : f val with ⟨ok, err⟩
      rw [hv] at hrej
      simp only at hrej
      subst hrej
      simp [CompositeValidator.Validate, hv]
    | cons g gs ih =>
      intro f l2 hacc hrej
      have hg : (g val).1 = true := hacc g (by simp)
      rcases hv : g val with ⟨ok, err⟩
      rw [hv] at hg
      simp only at hg
      subst hg
      show CompositeValidator.Validate (g :: (gs ++ f :: l2)) val = _
      simp only [CompositeValidator.Validate, hv]
      exact ih f l2 (fun x hx => hacc x (List.mem_cons_of_mem g hx)) hrej
  · intro l
    induction l with
    | nil => intro _; rfl
    | cons g gs ih =>
      intro hacc
      have hg : (g val).1 = true := hacc g (by simp)
      rcases hv : g val with ⟨ok, err⟩
      rw [hv] at hg
      simp only at hg
      subst hg
      simp only [CompositeValidator.Validate, hv]
      exact ih (fun x hx => hacc x (List.mem_cons_of_mem g hx))

/-- Witness for C2: with `[ltFive, sentinel]` at value 7, `ltFive` fails
first and the composite returns its error with the sentinel never reached;
with `[ltFive]` at value 3 every validator accepts and the composite returns
`(true, nil)`. -/
theorem C2_composite_short_circuit_witness :
    CompositeValidator.Validate [ltFive, sentinel] 7 =
        (false, (ltFive 7).2) ∧
    CompositeValidator.Validate [ltFive] 3 = (true, none) :=
  ⟨(C2_composite_short_circuit 7).1 [] ltFive [sentinel]
      (fun g hg => absurd hg (List.not_mem_nil g)) rfl,
   (C2_composite_short_circuit 3).2 [ltFive]
      (fun g hg => by rw [List.mem_singleton] at hg; subst hg; rfl)⟩

/-- C9: a `ValidatedValue` on which no `Set` has ever succeeded — freshly
constructed, with an arbitrary (or absent) bound validator, after any run of
`Set` calls each rejected by that validator — still returns the zero value
the Go struct initialization placed in it, a value no validator ever
checked. -/
theorem C9_unset_returns_zero {α : Type} (zero : α)
    (v? : Option (GoValidator α)) (vals : List α)
    (h : ∀ x ∈ vals, ∀ f, v? = some f → (f x).1 = false) :
    (ValidatedValue.setAll (ValidatedValue.fresh zero v?) vals).Get = zero := by
  rw [setAll_of_rejected vals (ValidatedValue.fresh zero v?) h]
  rfl

/-- Witness for C9: a fresh `ValidatedValue[int]` bound to a validator that
rejects everything (in particular it would reject 0 itself) still yields 0
from `Get` after three failed `Set` attempts. -/
theorem C9_unset_returns_zero_witness :
    (ValidatedValue.setAll
        (ValidatedValue.fresh (0 : Int) (some rejectAll)) [1, 2, 3]).Get = 0 :=
  C9_unset_returns_zero 0 (some rejectAll) [1, 2, 3]
    (fun _ _ f hf => by injection hf with h; exact h ▸ rfl)

/-- C3: range validation is inclusive at both ends — over any linear-ordered
ring payload (covering the integer and float sweeps), the configured bounds
themselves pass while `min - 1` and `max + 1` fail with the out-of-range
message; concretely, `IntRangeValidator{Min:0,Max:120}.Validate(200)` returns
`(false, err)` with the message naming "out of range" and the bounds 0 and
120. -/
theorem C3_range_inclusive {α : Type} [LinearOrderedRing α] (mi ma : α)
    (format : α → α → α → String) (h : mi ≤ ma) :
    validateRange mi mi ma format = (true, none) ∧
    validateRange ma mi ma format = (true, none) ∧
    validateRange (mi - 1) mi ma format =
      (false, some (format (mi - 1) mi ma)) ∧
    validateRange (ma + 1) mi ma format =
      (false, some (format (ma + 1) mi ma)) ∧
    IntRangeValidator.Validate ⟨0, 120⟩ 200 =
      (false, some "value 200 is out of range [0, 120]") := by
  refine ⟨?_, ?_, ?_, ?_, by decide⟩
  · have : ¬(mi < mi ∨ ma < mi) := by
      push_neg
      exact ⟨le_refl mi, h⟩
    simp [validateRange, this, h]
  · have : ¬(ma < mi ∨ ma < ma) := by
      push_neg
      exact ⟨h, le_refl ma⟩
    simp [validateRange, this, h]
  · have : mi - 1 < mi ∨ ma < mi - 1 := Or.inl (sub_lt_self mi one_pos)
    simp [validateRange, this]
  · have : ma + 1 < mi ∨ ma < ma + 1 := Or.inr (lt_add_one ma)
    simp [validateRange, this]

/-- Witness for C3 at the integer payload with the spec bounds `[0, 120]`. -/
theorem C3_range_inclusive_witness :
    validateRange (0 : Int) 0 120 intRangeFormat = (true, none) ∧
    validateRange (120 : Int) 0 120 intRangeFormat = (true, none) ∧
    validateRange ((0 : Int) - 1) 0 120 intRangeFormat =
      (false, some (intRangeFormat (0 - 1) 0 120)) ∧
    validateRange ((120 : Int) + 1) 0 120 intRangeFormat =
      (false, some (intRangeFormat (120 + 1) 0 120)) ∧
    IntRangeValidator.Validate ⟨0, 120⟩ 200 =
      (false, some "value 200 is out of range [0, 120]") :=
  C3_range_inclusive (0 : Int) 120 intRangeFormat (by decide)

/-- C4: for the one-of validators, validation succeeds exactly on membership
when the configured set is non-empty, and an empty configured set always
yields the empty-set configuration error regardless of the candidate — at the
shared primitive `validateOneOf` and at the string and int validators built
on it. -/
theorem C4_one_of_membership {α : Type} [DecidableEq α] (val : α)
    (values : List α) (emptyErr : String) (format : α → String) :
    (values ≠ [] →
      ((validateOneOf val values emptyErr format).1 = true ↔ val ∈ values)) ∧
    (values = [] →
      validateOneOf val values emptyErr format = (false, some emptyErr)) ∧
    (∀ (v : OneOfStringValidator) (s : String),
      (v.Values ≠ [] → ((v.Validate s).1 = true ↔ s ∈ v.Values)) ∧
      (v.Values = [] →
        v.Validate s =
          (false, some "value of parameter \"values\" cannot be empty"))) ∧
    (∀ (v : OneOfIntValidator) (n : Int),
      (v.Values ≠ [] → ((v.Validate n).1 = true ↔ n ∈ v.Values)) ∧
      (v.Values = [] →
        v.Validate n =
          (false, some "value of parameter \"values\" cannot be empty"))) := by
  have core : ∀ {β : Type} [DecidableEq β] (x : β) (vs : List β)
      (ee : String) (fm : β → String),
      (vs ≠ [] → ((validateOneOf x vs ee fm).1 = true ↔ x ∈ vs)) ∧
      (vs = [] → validateOneOf x vs ee fm = (false, some ee)) := by
    intro β _ x vs ee fm
    constructor
    · intro hne
      unfold validateOneOf
      rw [if_neg hne]
      by_cases hx : x ∈ vs
      · simp [hx]
      · simp [hx]
    · intro he
      subst he
      rfl
  refine ⟨(core val values emptyErr format).1,
          (core val values emptyErr format).2, ?_, ?_⟩
  · intro v s
    exact core s v.Values _ _
  · intro v n
    exact core n v.Values _ _

/-- Witness for C4: concrete membership and empty-set outcomes for the int
payload, through the theorem. -/
theorem C4_one_of_membership_witness :
    ((validateOneOf (3 : Int) [1, 3, 5] "empty" toString).1 = true ↔
      (3 : Int) ∈ [1, 3, 5]) ∧
    (OneOfIntValidator.Validate ⟨[]⟩ 3 =
      (false, some "value of parameter \"values\" cannot be empty")) :=
  ⟨(C4_one_of_membership (3 : Int) [1, 3, 5] "empty" toString).1
      (by decide),
   ((C4_one_of_membership (3 : Int) [] "empty" toString).2.2.2 ⟨[]⟩ 3).2 rfl⟩

/-- C5: with no configured version (`Version = 0`, the zero value) the UUID
validator defaults the expected version to 4: any canonically-grouped
candidate whose (lowercased) version nibble is `4` and whose variant nibble
is in `{8, 9, a, b}` is accepted; concretely the version-4 example is
accepted and the version-1 example is rejected with a wrong-version error. -/
theorem C5_uuid_default_version (s : String)
    (hfmt : uuidFormatOk s.data = true)
    (hver : (s.data.getD 14 ' ').toLower = '4')
    (hvar : (s.data.getD 19 ' ').toLower = '8' ∨
            (s.data.getD 19 ' ').toLower = '9' ∨
            (s.data.getD 19 ' ').toLower = 'a' ∨
            (s.data.getD 19 ' ').toLower = 'b') :
    UUIDValidator.Validate {} s = (true, none) ∧
    UUIDValidator.Validate {} "550e8400-e29b-41d4-a716-446655440000" =
      (true, none) ∧
    UUIDValidator.Validate {} "6ba7b810-9dad-11d1-80b4-00c04fd430c8" =
      (false, some (.wrongVersion "6ba7b810-9dad-11d1-80b4-00c04fd430c8" 4)) := by
  refine ⟨?_, by decide, by decide⟩
  simp only [UUIDValidator.Validate, hfmt, hver]
  rcases hvar with h | h | h | h <;> rw [h] <;> simp [hexVal]

/-- Witness for C5 at the version-4 example UUID of the spec. -/
theorem C5_uuid_default_version_witness :
    UUIDValidator.Validate {} "550e8400-e29b-41d4-a716-446655440000" =
      (true, none) ∧
    UUIDValidator.Validate {} "6ba7b810-9dad-11d1-80b4-00c04fd430c8" =
      (false, some (.wrongVersion "6ba7b810-9dad-11d1-80b4-00c04fd430c8" 4)) :=
  ⟨(C5_uuid_default_version "550e8400-e29b-41d4-a716-446655440000"
      (by decide) (by decide) (by decide)).1,
   (C5_uuid_default_version "550e8400-e29b-41d4-a716-446655440000"
      (by decide) (by decide) (by decide)).2.2⟩

/-- C6 counterexample: the claim says a configured version outside `[1, 8]`
makes `Validate` report the invalid configured version for EVERY candidate;
but on a candidate that does not match the canonical grouping the source
returns the not-a-valid-UUID error first, not the configuration error. -/
theorem C6_counterexample :
    UUIDValidator.Validate { Version := 9 } "not-a-uuid" =
      (false, some (.notUUID "not-a-uuid")) ∧
    (UUIDValidator.Validate { Version := 9 } "not-a-uuid").2 ≠
      some (.invalidVersion 9) := by
  constructor
  · decide
  · decide

/-- C6 (amended): the invalid-configured-version error is only reached once
the candidate has passed the canonical-format and variant checks: for a
configured version outside `[1, 8]` (and necessarily nonzero) every such
candidate yields the configuration error, while any candidate failing the
format check yields the not-a-valid-UUID error instead, whatever the
configured version. -/
theorem C6_amended_config_error (v : UUIDValidator) (s : String)
    (hv : v.Version < 0 ∨ v.Version > 8)
    (hfmt : uuidFormatOk s.data = true)
    (hvar : (s.data.getD 19 ' ').toLower = '8' ∨
            (s.data.getD 19 ' ').toLower = '9' ∨
            (s.data.getD 19 ' ').toLower = 'a' ∨
            (s.data.getD 19 ' ').toLower = 'b') :
    v.Validate s = (false, some (.invalidVersion v.Version)) ∧
    (∀ t : String, uuidFormatOk t.data = false →
      v.Validate t = (false, some (.notUUID t))) := by
  have hnz : v.Version ≠ 0 := by
    rcases hv with h | h
    · exact ne_of_lt h
    · exact ne_of_gt (lt_trans (by norm_num) h)
  have hout : v.Version < 1 ∨ v.Version > 8 := by
    rcases hv with h | h
    · exact Or.inl (lt_trans h (by norm_num))
    · exact Or.inr h
  constructor
  · simp only [UUIDValidator.Validate, hfmt]
    rcases hvar with h | h | h | h <;> rw [h] <;> simp [hnz, hout]
  · intro t hft
    simp [UUIDValidator.Validate, hft]

/-- Witness for C6 (amended): configured version 9 with the well-formed
version-4 example yields the invalid-version configuration error, and with
the malformed candidate yields the not-a-valid-UUID error. -/
theorem C6_amended_config_error_witness :
    UUIDValidator.Validate { Version := 9 }
        "550e8400-e29b-41d4-a716-446655440000" =
      (false, some (.invalidVersion 9)) ∧
    UUIDValidator.Validate { Version := 9 } "not-a-uuid" =
      (false, some (.notUUID "not-a-uuid")) :=
  ⟨(C6_amended_config_error { Version := 9 }
      "550e8400-e29b-41d4-a716-446655440000" (by decide) (by decide)
      (by decide)).1,
   (C6_amended_config_error { Version := 9 }
      "550e8400-e29b-41d4-a716-446655440000" (by decide) (by decide)
      (by decide)).2 "not-a-uuid" (by decide)⟩

/-- C7: when the two bounds normalize to one address family and the candidate
to the other (different normalized byte lengths), the IP range validator
fails with the family-mismatch configuration error — never an in-range
verdict; when all three normalize to the same family and the bounds are not
inverted, the verdict is exactly the unsigned byte-wise lexicographic
membership of the normalized candidate between the normalized bounds;
concretely, bounds 192.168.1.10–192.168.1.20 accept 192.168.1.15 and reject
192.168.1.30. -/
theorem C7_ip_family_mismatch :
    (∀ (v : IPRangeValidator) (val s e w : List Nat),
      normalizeIP v.Start = some s → normalizeIP v.End = some e →
      normalizeIP val = some w → s.length = e.length →
      w.length ≠ s.length →
      v.Validate val = (false, some .familyMismatch)) ∧
    (∀ (v : IPRangeValidator) (val s e w : List Nat),
      normalizeIP v.Start = some s → normalizeIP v.End = some e →
      normalizeIP val = some w → s.length = e.length →
      w.length = s.length → bytesCompare s e ≠ .gt →
      ((v.Validate val).1 = true ↔
        (bytesCompare w s ≠ .lt ∧ bytesCompare w e ≠ .gt))) ∧
    IPRangeValidator.Validate ⟨[192, 168, 1, 10], [192, 168, 1, 20]⟩
      [192, 168, 1, 15] = (true, none) ∧
    IPRangeValidator.Validate ⟨[192, 168, 1, 10], [192, 168, 1, 20]⟩
      [192, 168, 1, 30] =
      (false, some (.outOfRange [192, 168, 1, 30] [192, 168, 1, 10]
        [192, 168, 1, 20])) := by
  refine ⟨?_, ?_, by decide, by decide⟩
  · intro v val s e w hs he hw hse hws
    simp only [IPRangeValidator.Validate, hs, he, hw]
    rw [if_neg (by simp [hse]), if_pos hws]
  · intro v val s e w hs he hw hse hws hinv
    simp only [IPRangeValidator.Validate, hs, he, hw]
    rw [if_neg (by simp [hse]), if_neg (by simp [hws]), if_neg hinv]
    by_cases hlow : bytesCompare w s = .lt
    · simp [hlow]
    · by_cases hhigh : bytesCompare w e = .gt
      · simp [hlow, hhigh]
      · simp [hlow, hhigh]

/-- Witness for C7: an IPv4 candidate against IPv6 bounds is a family
mismatch, and the same-family membership shape holds at the concrete
192.168.1.x bounds. -/
theorem C7_ip_family_mismatch_witness :
    IPRangeValidator.Validate
      ⟨[32, 1, 13, 184, 0, 0, 0, 0, 0, 0, 0, 0, 0, 0, 0, 1],
       [32, 1, 13, 184, 0, 0, 0, 0, 0, 0, 0, 0, 0, 0, 255, 255]⟩
      [10, 0, 0, 1] = (false, some .familyMismatch) ∧
    ((IPRangeValidator.Validate ⟨[192, 168, 1, 10], [192, 168, 1, 20]⟩
        [192, 168, 1, 15]).1 = true ↔
      (bytesCompare [192, 168, 1, 15] [192, 168, 1, 10] ≠ .lt ∧
       bytesCompare [192, 168, 1, 15] [192, 168, 1, 20] ≠ .gt)) :=
  ⟨C7_ip_family_mismatch.1
      ⟨[32, 1, 13, 184, 0, 0, 0, 0, 0, 0, 0, 0, 0, 0, 0, 1],
       [32, 1, 13, 184, 0, 0, 0, 0, 0, 0, 0, 0, 0, 0, 255, 255]⟩
      [10, 0, 0, 1] _ _ _ rfl rfl rfl rfl (by decide),
   C7_ip_family_mismatch.2.1 ⟨[192, 168, 1, 10], [192, 168, 1, 20]⟩
      [192, 168, 1, 15] _ _ _ rfl rfl rfl rfl rfl (by decide)⟩

/-- C10: a 16-byte IPv4-mapped address (leading bytes
`0,...,0,0xff,0xff`) normalizes to its trailing 4 bytes, so against any
bounds the validator reaches the same verdict for the mapped form as for the
plain IPv4 form; concretely `::ffff:192.168.1.15` against the IPv4 bounds
192.168.1.10–192.168.1.20 is accepted, not rejected as a family mismatch. -/
theorem C10_v4_mapped_candidate (ip : List Nat) (h16 : ip.length = 16)
    (hmap : ip.take 12 = v4MappedHead) :
    normalizeIP ip = some (ip.drop 12) ∧
    (∀ v : IPRangeValidator, (v.Validate ip).1 = (v.Validate (ip.drop 12)).1) ∧
    IPRangeValidator.Validate ⟨[192, 168, 1, 10], [192, 168, 1, 20]⟩
      [0, 0, 0, 0, 0, 0, 0, 0, 0, 0, 255, 255, 192, 168, 1, 15] =
      (true, none) := by
  have hnorm : normalizeIP ip = some (ip.drop 12) := by
    unfold normalizeIP
    rw [if_neg (by omega), if_pos h16, if_pos hmap]
  have hnorm4 : normalizeIP (ip.drop 12) = some (ip.drop 12) := by
    unfold normalizeIP
    rw [if_pos (by simp [h16])]
  refine ⟨hnorm, ?_, by decide⟩
  intro v
  simp only [IPRangeValidator.Validate, hnorm, hnorm4]
  cases normalizeIP v.Start with
  | none => rfl
  | some s =>
    cases normalizeIP v.End with
    | none => rfl
    | some e =>
      by_cases h1 : s.length ≠ e.length
      · simp [h1]
      · by_cases h2 : (ip.drop 12).length ≠ s.length
        · rw [List.length_drop] at h2
          simp [h1, h2]
        · rw [List.length_drop] at h2
          by_cases h3 : bytesCompare s e = .gt
          · simp [h1, h2, h3]
          · by_cases h4 : bytesCompare (ip.drop 12) s = .lt ∨
                bytesCompare (ip.drop 12) e = .gt
            · simp [h1, h2, h3, h4]
            · simp [h1, h2, h3, h4]

/-- Witness for C10 at the concrete mapped address `::ffff:192.168.1.15`. -/
theorem C10_v4_mapped_candidate_witness :
    normalizeIP [0, 0, 0, 0, 0, 0, 0, 0, 0, 0, 255, 255, 192, 168, 1, 15] =
      some [192, 168, 1, 15] ∧
    IPRangeValidator.Validate ⟨[192, 168, 1, 10], [192, 168, 1, 20]⟩
      [0, 0, 0, 0, 0, 0, 0, 0, 0, 0, 255, 255, 192, 168, 1, 15] =
      (true, none) :=
  ⟨(C10_v4_mapped_candidate
      [0, 0, 0, 0, 0, 0, 0, 0, 0, 0, 255, 255, 192, 168, 1, 15]
      (by decide) (by decide)).1,
   (C10_v4_mapped_candidate
      [0, 0, 0, 0, 0, 0, 0, 0, 0, 0, 255, 255, 192, 168, 1, 15]
      (by decide) (by decide)).2.2⟩

/-- The parameter loop of `splitFormTag` fails exactly when some
comma-separated piece is non-empty after trimming and malformed; the
accumulated argument map is irrelevant to failure. -/
theorem formPairsLoop_error_iff :
    ∀ (pairs : List String) (args : List (String × String)),
      ((∃ err, formPairsLoop pairs args = .error err) ↔
        ∃ p ∈ pairs, goTrim p ≠ "" ∧ malformedPair (goTrim p) = true) := by
  intro pairs
  induction pairs with
  | nil =>
    intro args
    simp [formPairsLoop]
  | cons pair rest ih =>
    intro args
    by_cases hp : goTrim pair = ""
    · have hstep : formPairsLoop (pair :: rest) args = formPairsLoop rest args := by
        simp [formPairsLoop, hp]
      rw [hstep, ih args]
      simp [hp]
    · rcases hkv : goSplit (goTrim pair) '=' with _ | ⟨k0, _ | ⟨v0, _ | ⟨t0, ts⟩⟩⟩
      · have hstep : formPairsLoop (pair :: rest) args =
            .error (malformedMsg (goTrim pair)) := by
          simp [formPairsLoop, hp, hkv]
        have hmal : malformedPair (goTrim pair) = true := by
          simp [malformedPair, hkv]
        rw [hstep]
        exact ⟨fun _ => ⟨pair, by simp, hp, hmal⟩,
               fun _ => ⟨malformedMsg (goTrim pair), rfl⟩⟩
      · have hstep : formPairsLoop (pair :: rest) args =
            .error (malformedMsg (goTrim pair)) := by
          simp [formPairsLoop, hp, hkv]
        have hmal : malformedPair (goTrim pair) = true := by
          simp [malformedPair, hkv]
        rw [hstep]
        exact ⟨fun _ => ⟨pair, by simp, hp, hmal⟩,
               fun _ => ⟨malformedMsg (goTrim pair), rfl⟩⟩
      · by_cases hkey : goTrim k0 = ""
        · have hstep : formPairsLoop (pair :: rest) args =
              .error (malformedMsg (goTrim pair)) := by
            simp [formPairsLoop, hp, hkv, hkey]
          have hmal : malformedPair (goTrim pair) = true := by
            simp [malformedPair, hkv, hkey]
          rw [hstep]
          exact ⟨fun _ => ⟨pair, by simp, hp, hmal⟩,
                 fun _ => ⟨malformedMsg (goTrim pair), rfl⟩⟩
        · by_cases hval : goTrim v0 = ""
          · have hstep : formPairsLoop (pair :: rest) args =
                .error (malformedMsg (goTrim pair)) := by
              simp [formPairsLoop, hp, hkv, hkey, hval]
            have hmal : malformedPair (goTrim pair) = true := by
              simp [malformedPair, hkv, hval]
            rw [hstep]
            exact ⟨fun _ => ⟨pair, by simp, hp, hmal⟩,
                   fun _ => ⟨malformedMsg (goTrim pair), rfl⟩⟩
          · have hstep : formPairsLoop (pair :: rest) args =
                formPairsLoop rest (mapInsert args (goTrim k0) (goTrim v0)) := by
              simp [formPairsLoop, hp, hkv, hkey, hval]
            have hmal : malformedPair (goTrim pair) = false := by
              simp [malformedPair, hkv, hkey, hval]
            rw [hstep, ih]
            constructor
            · rintro ⟨p, hpin, hcond⟩
              exact ⟨p, List.mem_cons_of_mem pair hpin, hcond⟩
            · rintro ⟨p, hpin, hcond⟩
              rcases List.mem_cons.mp hpin with rfl | hpin2
              · rw [hmal] at hcond
                exact absurd hcond.2 (by simp)
              · exact ⟨p, hpin2, hcond⟩
      · have hstep : formPairsLoop (pair :: rest) args =
            .error (malformedMsg (goTrim pair)) := by
          simp [formPairsLoop, hp, hkv]
        have hmal : malformedPair (goTrim pair) = true := by
          simp [malformedPair, hkv]
        rw [hstep]
        exact ⟨fun _ => ⟨pair, by simp, hp, hmal⟩,
               fun _ => ⟨malformedMsg (goTrim pair), rfl⟩⟩

/-- C8 counterexample: the trailing comma of the tag value `"name,"` produces
a wholly-empty parameter pair — malformed in the sense of the claim (it has
no `=`) — yet `splitFormTag` silently drops it and succeeds instead of
returning a hard parse error. -/
theorem C8_counterexample :
    goSplit "name," ',' = ["name", ""] ∧
    malformedPair (goTrim "") = true ∧
    splitFormTag "name," = .ok ("field", [("key", "name")]) :=
  ⟨by decide, by decide, by decide⟩

/-- C8 (amended): provided the leading directive name is non-empty after
trimming, `splitFormTag` returns a hard parse error exactly when some
comma-separated parameter pair is NON-EMPTY after whitespace trimming and
malformed (not exactly one `=`, or empty trimmed key or value); a pair that
trims to the empty string — from a trailing or doubled comma — is silently
skipped and never causes an error. -/
theorem C8_amended_malformed_pairs (tagVal : String)
    (hhead : goTrim ((goSplit tagVal ',').headD "") ≠ "") :
    ((∃ err, splitFormTag tagVal = .error err) ↔
      ∃ p ∈ (goSplit tagVal ',').tail,
        goTrim p ≠ "" ∧ malformedPair (goTrim p) = true) := by
  have hne : ¬((goSplit tagVal ',').length = 0 ∨
      goTrim ((goSplit tagVal ',').headD "") = "") := by
    push_neg
    refine ⟨?_, hhead⟩
    intro hlen
    apply hhead
    have : goSplit tagVal ',' = [] := List.length_eq_zero.mp hlen
    rw [this]
    rfl
  unfold splitFormTag
  rw [if_neg hne]
  rcases hloop : formPairsLoop (goSplit tagVal ',').tail
      [("key", goTrim ((goSplit tagVal ',').headD ""))] with err | args
  · rw [← formPairsLoop_error_iff (goSplit tagVal ',').tail
      [("key", goTrim ((goSplit tagVal ',').headD ""))]]
    rw [hloop]
    simp
  · rw [← formPairsLoop_error_iff (goSplit tagVal ',').tail
      [("key", goTrim ((goSplit tagVal ',').headD ""))]]
    rw [hloop]
    simp

/-- Witness for C8 (amended): the tag value `"name,max"` has the non-empty
malformed pair `"max"` (no `=`), so the parse is a hard error; through the
equivalence. -/
theorem C8_amended_malformed_pairs_witness :
    (∃ err, splitFormTag "name,max" = .error err) ↔
      ∃ p ∈ (goSplit "name,max" ',').tail,
        goTrim p ≠ "" ∧ malformedPair (goTrim p) = true :=
  C8_amended_malformed_pairs "name,max" (by decide)

end Valex
